import Mathlib

/-!
Verification of the `host-uk/ansible-coolify` repository's specification
against a shallow embedding of its source code.

The embedding covers:
* `module_utils/swagger/swagger_client.py` — the OpenAPI-driven request
  resolver (`SwaggerClient`): operation indexing, parameter resolution,
  request-body construction, the urllib transport wrapper, and the
  retry/backoff call loop.
* `module_utils/swagger/coolify_api.py` — the `CoolifyClient` facade's
  `ensure_server` / `ensure_project` helpers.
* `library/coolify_api.py` and `library/coolify_project.py` — the Ansible
  module entry points (`run_module`).

Python dicts are modelled as insertion-ordered association lists
(`Dict`), JSON-ish values (both the parsed OpenAPI document and
caller-supplied parameter values) as the inductive `Doc`.  Network I/O is
modelled by oracle functions supplied as parameters: a transport behaviour
maps the attempt number to either a response or a raised
`SwaggerClientError` message, and the facade's API methods are oracle
fields returning `Except`.  `time.sleep` is modelled by recording the
requested delays.
-/

namespace Coolify

/-- A JSON-like document value: models both the parsed OpenAPI spec tree and
the free-form parameter / response values the Python code passes around.
Python dicts are insertion-ordered association lists. -/
inductive Doc where
  | null : Doc
  | bool : Bool → Doc
  | int : Int → Doc
  | str : String → Doc
  | arr : List Doc → Doc
  | obj : List (String × Doc) → Doc
deriving Repr

mutual

/-- Decidable equality on `Doc` (written by hand: the automatic deriving
does not handle the nested `List` occurrences). -/
def Doc.decEq : (a b : Doc) → Decidable (a = b)
  | .null, .null => isTrue rfl
  | .bool x, .bool y =>
    if h : x = y then isTrue (by rw [h])
    else isFalse (fun hc => h (Doc.bool.inj hc))
  | .int x, .int y =>
    if h : x = y then isTrue (by rw [h])
    else isFalse (fun hc => h (Doc.int.inj hc))
  | .str x, .str y =>
    if h : x = y then isTrue (by rw [h])
    else isFalse (fun hc => h (Doc.str.inj hc))
  | .arr xs, .arr ys =>
    match Doc.decEqList xs ys with
    | isTrue h => isTrue (by rw [h])
    | isFalse h => isFalse (fun hc => h (Doc.arr.inj hc))
  | .obj xs, .obj ys =>
    match Doc.decEqFields xs ys with
    | isTrue h => isTrue (by rw [h])
    | isFalse h => isFalse (fun hc => h (Doc.obj.inj hc))
  | .null, .bool _ | .null, .int _ | .null, .str _ | .null, .arr _
  | .null, .obj _ => isFalse nofun
  | .bool _, .null | .bool _, .int _ | .bool _, .str _ | .bool _, .arr _
  | .bool _, .obj _ => isFalse nofun
  | .int _, .null | .int _, .bool _ | .int _, .str _ | .int _, .arr _
  | .int _, .obj _ => isFalse nofun
  | .str _, .null | .str _, .bool _ | .str _, .int _ | .str _, .arr _
  | .str _, .obj _ => isFalse nofun
  | .arr _, .null | .arr _, .bool _ | .arr _, .int _ | .arr _, .str _
  | .arr _, .obj _ => isFalse nofun
  | .obj _, .null | .obj _, .bool _ | .obj _, .int _ | .obj _, .str _
  | .obj _, .arr _ => isFalse nofun

/-- Decidable equality on lists of `Doc`. -/
def Doc.decEqList : (a b : List Doc) → Decidable (a = b)
  | [], [] => isTrue rfl
  | [], _ :: _ => isFalse nofun
  | _ :: _, [] => isFalse nofun
  | x :: xs, y :: ys =>
    match Doc.decEq x y with
    | isTrue h1 =>
      match Doc.decEqList xs ys with
      | isTrue h2 => isTrue (by rw [h1, h2])
      | isFalse h2 => isFalse (fun hc => h2 (List.cons.inj hc).2
      )
    | isFalse h1 => isFalse (fun hc => h1 (List.cons.inj hc).1)

/-- Decidable equality on dict field lists. -/
def Doc.decEqFields : (a b : List (String × Doc)) → Decidable (a = b)
  | [], [] => isTrue rfl
  | [], _ :: _ => isFalse nofun
  | _ :: _, [] => isFalse nofun
  | (k1, v1) :: xs, (k2, v2) :: ys =>
    if hk : k1 = k2 then
      match Doc.decEq v1 v2 with
      | isTrue hv =>
        match Doc.decEqFields xs ys with
        | isTrue ht => isTrue (by rw [hk, hv, ht])
        | isFalse ht => isFalse (fun hc => ht (List.cons.inj hc).2)
      | isFalse hv =>
        isFalse (fun hc => hv (congrArg Prod.snd (List.cons.inj hc).1))
    else
      isFalse (fun hc => hk (congrArg Prod.fst (List.cons.inj hc).1))

end

instance : DecidableEq Doc := Doc.decEq

/-- A Python dict with string keys, as the code uses for params maps. -/
abbrev Dict := List (String × Doc)

/-- Lookup in an insertion-ordered association list: models `k in d` /
`d[k]` / `d.get(k)` on a Python dict with string keys. -/
def alookup {α : Type} : List (String × α) → String → Option α
  | [], _ => none
  | (k', v) :: t, k => if k' = k then some v else alookup t k

/-- Python dict assignment `d[k] = v`: replaces the value in place if the
key exists (keeping insertion order), otherwise appends. -/
def ainsert {α : Type} (d : List (String × α)) (k : String) (v : α) :
    List (String × α) :=
  if (alookup d k).isSome then
    d.map (fun kv => if kv.1 = k then (k, v) else kv)
  else
    d ++ [(k, v)]

/-- `d.get(k)` for a Python dict value: `none` models both a missing key and
a non-dict receiver (the loaded spec only applies `.get` to dicts). -/
def Doc.get : Doc → String → Option Doc
  | .obj fields, k => alookup fields k
  | _, _ => none

/-- `k in d` membership test on a dict value. -/
def Doc.hasKey (d : Doc) (k : String) : Bool :=
  (d.get k).isSome

/-- Python truthiness of a value. -/
def pyTruthy : Doc → Bool
  | .null => false
  | .bool b => b
  | .int n => n != 0
  | .str s => s ≠ ""
  | .arr xs => !xs.isEmpty
  | .obj fields => !fields.isEmpty

/-! ### Python string conversions

`str()`, `json.dumps` (with its defaults: `ensure_ascii=True`, separators
`", "` and `": "`), and `urllib.parse.urlencode` (which applies
`quote_plus` to `str()` of each key and value). -/

/-- Lowercase hex digit, as used by `json.dumps` `\uXXXX` escapes. -/
def hexLower (n : Nat) : Char :=
  if n < 10 then Char.ofNat (48 + n) else Char.ofNat (87 + n)

/-- Four lowercase hex digits. -/
def toHex4 (n : Nat) : String :=
  String.mk [hexLower (n / 4096 % 16), hexLower (n / 256 % 16),
    hexLower (n / 16 % 16), hexLower (n % 16)]

/-- `json.dumps` escaping of one character (`ensure_ascii=True`). -/
def jsonEscapeChar (c : Char) : String :=
  if c = '"' then "\\\""
  else if c = '\\' then "\\\\"
  else if c = '\n' then "\\n"
  else if c = '\r' then "\\r"
  else if c = '\t' then "\\t"
  else if c.toNat = 8 then "\\b"
  else if c.toNat = 12 then "\\f"
  else if c.toNat < 32 then "\\u" ++ toHex4 c.toNat
  else if c.toNat < 127 then String.singleton c
  else if c.toNat ≤ 65535 then "\\u" ++ toHex4 c.toNat
  else
    let v := c.toNat - 65536
    "\\u" ++ toHex4 (55296 + v / 1024) ++ "\\u" ++ toHex4 (56320 + v % 1024)

/-- `json.dumps` of a string. -/
def jsonStr (s : String) : String :=
  "\"" ++ String.join (s.toList.map jsonEscapeChar) ++ "\""

mutual

/-- `json.dumps(v)` with the default separators. -/
def jsonDump : Doc → String
  | .null => "null"
  | .bool true => "true"
  | .bool false => "false"
  | .int n => toString n
  | .str s => jsonStr s
  | .arr xs => "[" ++ String.intercalate ", " (jsonDumpList xs) ++ "]"
  | .obj fs => "\x7b" ++ String.intercalate ", " (jsonDumpFields fs) ++ "\x7d"

/-- `json.dumps` of the elements of a list. -/
def jsonDumpList : List Doc → List String
  | [] => []
  | x :: xs => jsonDump x :: jsonDumpList xs

/-- `json.dumps` of the entries of a dict. -/
def jsonDumpFields : List (String × Doc) → List String
  | [] => []
  | (k, v) :: fs => (jsonStr k ++ ": " ++ jsonDump v) :: jsonDumpFields fs

end

mutual

/-- Python `repr()` of a value (the fragment the embedding needs: `repr` of
a string is approximated as plain single quotes, which is exact for strings
containing no quote or escape character — all strings the claims touch). -/
def pyRepr : Doc → String
  | .null => "None"
  | .bool true => "True"
  | .bool false => "False"
  | .int n => toString n
  | .str s => "\x27" ++ s ++ "\x27"
  | .arr xs => "[" ++ String.intercalate ", " (pyReprList xs) ++ "]"
  | .obj fs => "\x7b" ++ String.intercalate ", " (pyReprFields fs) ++ "\x7d"

/-- `repr` of the elements of a list. -/
def pyReprList : List Doc → List String
  | [] => []
  | x :: xs => pyRepr x :: pyReprList xs

/-- `repr` of the entries of a dict. -/
def pyReprFields : List (String × Doc) → List String
  | [] => []
  | (k, v) :: fs => ("\x27" ++ k ++ "\x27: " ++ pyRepr v) :: pyReprFields fs

end

/-- Python `str()` of a value. -/
def pyStr : Doc → String
  | .null => "None"
  | .bool true => "True"
  | .bool false => "False"
  | .int n => toString n
  | .str s => s
  | .arr xs => pyRepr (.arr xs)
  | .obj fs => pyRepr (.obj fs)

/-- Bytes that `urllib.parse.quote_plus` leaves unescaped
(ALPHA / DIGIT / `_` / `.` / `-` / `~`). -/
def urlSafeByte (n : Nat) : Bool :=
  (65 ≤ n && n ≤ 90) || (97 ≤ n && n ≤ 122) || (48 ≤ n && n ≤ 57) ||
    n == 95 || n == 46 || n == 45 || n == 126

/-- Uppercase hex digit, as used by percent-encoding. -/
def hexUpper (n : Nat) : Char :=
  if n < 10 then Char.ofNat (48 + n) else Char.ofNat (55 + n)

/-- The UTF-8 bytes of one character. -/
def utf8Bytes (c : Char) : List Nat :=
  let n := c.toNat
  if n < 128 then [n]
  else if n < 2048 then [192 + n / 64, 128 + n % 64]
  else if n < 65536 then [224 + n / 4096, 128 + n / 64 % 64, 128 + n % 64]
  else [240 + n / 262144, 128 + n / 4096 % 64, 128 + n / 64 % 64, 128 + n % 64]

/-- `urllib.parse.quote_plus` over the UTF-8 encoding of a string. -/
def quotePlus (s : String) : String :=
  String.join (s.toList.map fun c =>
    String.join ((utf8Bytes c).map fun n =>
      if urlSafeByte n then String.singleton (Char.ofNat n)
      else if n = 32 then "+"
      else "%" ++ String.mk [hexUpper (n / 16), hexUpper (n % 16)]))

/-- `urllib.parse.urlencode(d)`: `quote_plus(str(k)) ++ "=" ++
quote_plus(str(v))` joined with `&` in insertion order. -/
def urlencodePairs (d : Dict) : String :=
  String.intercalate "&" (d.map fun kv => quotePlus kv.1 ++ "=" ++ quotePlus (pyStr kv.2))

/-- Python `s.rstrip('/')`. -/
def rstripSlash (s : String) : String :=
  String.mk ((s.toList.reverse.dropWhile (· == '/')).reverse)

/-- Replacement loop over characters.  The fuel argument (instantiated
with the string length, which never runs out since every step consumes at
least one character) only makes the recursion structural. -/
def replaceFuel (pat rep : List Char) : Nat → List Char → List Char
  | 0, l => l
  | _ + 1, [] => []
  | fuel + 1, c :: rest =>
    if pat ≠ [] ∧ pat.isPrefixOf (c :: rest) then
      rep ++ replaceFuel pat rep fuel ((c :: rest).drop pat.length)
    else c :: replaceFuel pat rep fuel rest

/-- Python `s.replace(pat, rep)`: every non-overlapping occurrence, left
to right (the source only uses non-empty patterns). -/
def pyReplace (s pat rep : String) : String :=
  String.mk (replaceFuel pat.toList rep.toList s.length s.toList)

/-- Splitting loop over characters, same fuel device. -/
def splitFuel (sep : List Char) : Nat → List Char → List Char → List (List Char)
  | 0, _, acc => [acc.reverse]
  | _ + 1, [], acc => [acc.reverse]
  | fuel + 1, c :: rest, acc =>
    if sep ≠ [] ∧ sep.isPrefixOf (c :: rest) then
      acc.reverse :: splitFuel sep fuel ((c :: rest).drop sep.length) []
    else splitFuel sep fuel rest (c :: acc)

/-- Python `s.split(sep)` for a non-empty separator. -/
def pySplit (s sep : String) : List String :=
  (splitFuel sep.toList s.length s.toList []).map String.mk

/-- Python `s.startswith(pat)`. -/
def pyStartsWith (s pat : String) : Bool :=
  pat.toList.isPrefixOf s.toList

/-- Python `s.upper()` (ASCII, as used on HTTP method names). -/
def pyUpper (s : String) : String := String.mk (s.toList.map Char.toUpper)

/-- Python `s.lower()` (ASCII, as used on error-reason text). -/
def pyLower (s : String) : String := String.mk (s.toList.map Char.toLower)

/-! ## SwaggerClient (`module_utils/swagger/swagger_client.py`)

Operation indexing (`_build_operation_map`), lookup (`get_operation`),
`$ref` resolution (`_resolve_ref`), request building (`call_operation`
lines 405–451 and `_build_request_body`), the urllib transport wrapper
(`_make_request_with_urllib`), and the retry loop (`call_operation`
lines 453–476). -/

/-- One entry of the `_operations` map (the `operation` dict itself is kept
implicitly: only the fields the client reads are carried). -/
structure OpInfo where
  path : String
  method : String
  parameters : List Doc
  requestBody : Option Doc
deriving Repr, DecidableEq

/-- `_get_operation_parameters`: path-item-level parameters extended by
operation-level parameters (the loaded spec holds them as arrays). -/
def getOperationParameters (operation pathItem : Doc) : List Doc :=
  (match pathItem.get "parameters" with
   | some (.arr ps) => ps
   | _ => []) ++
  (match operation.get "parameters" with
   | some (.arr ps) => ps
   | _ => [])

/-- The HTTP methods `_build_operation_map` scans, in order. -/
def httpMethods : List String := ["get", "post", "put", "patch", "delete", "options", "head"]

/-- One iteration of the inner loop of `_build_operation_map`: index the
given method of a path item if it carries a truthy `operationId` (the
operation ids of a JSON spec are strings; an empty string is falsy and
skipped, like a missing one). -/
def indexMethod (pathKey : String) (pathItem : Doc)
    (ops : List (String × OpInfo)) (method : String) : List (String × OpInfo) :=
  match pathItem.get method with
  | none => ops
  | some operation =>
    match operation.get "operationId" with
    | some (.str oid) =>
      if oid = "" then ops
      else
        ainsert ops oid
          ⟨pathKey, pyUpper method, getOperationParameters operation pathItem,
            operation.get "requestBody"⟩
    | some _ => ops
    | none => ops

/-- One iteration of the outer loop of `_build_operation_map`: scan the
seven HTTP methods of one path item. -/
def indexPath (ops : List (String × OpInfo)) (entry : String × Doc) :
    List (String × OpInfo) :=
  httpMethods.foldl (indexMethod entry.1 entry.2) ops

/-- `_build_operation_map`: fold over `spec.get('paths', {}).items()`. -/
def buildOperationMap (spec : Doc) : List (String × OpInfo) :=
  match spec.get "paths" with
  | some (.obj pathEntries) => pathEntries.foldl indexPath []
  | _ => []

/-- The `get_operation` error text: the f-string enumerates
`available[:10]` followed by a literal ellipsis. -/
def operationNotFoundMsg (oid : String) (available : List String) : String :=
  "Operation \x27" ++ oid ++ "\x27 not found. Available operations: " ++
    String.intercalate ", " (available.take 10) ++ "..."

/-- `get_operation`: raises `SwaggerClientError` (modelled as `.error`)
when the id is absent from the `_operations` map. -/
def getOperation (ops : List (String × OpInfo)) (oid : String) :
    Except String OpInfo :=
  match alookup ops oid with
  | none => .error (operationNotFoundMsg oid (ops.map Prod.fst))
  | some info => .ok info

/-- The navigation loop of `_resolve_ref`: descend one key per pointer
segment, `none` as soon as the current node is not a dict holding it. -/
def refNavigate : Doc → List String → Option Doc
  | current, [] => some current
  | current, part :: rest =>
    match current with
    | .obj fields =>
      match alookup fields part with
      | some nxt => refNavigate nxt rest
      | none => none
    | _ => none

/-- `_resolve_ref`: only document-internal `#/`-prefixed pointers. -/
def resolveRef (spec : Doc) (ref : String) : Option Doc :=
  if pyStartsWith ref "#/" then
    refNavigate spec ((pySplit (String.mk (ref.toList.drop 2)) "/")) else none

/-- `python_name = param_name.replace('-', '_')`. -/
def pyName (n : String) : String := pyReplace n "-" "_"

/-- One iteration of the path-substitution loop of `call_operation`
(lines 409–416): try the underscore-converted name first, then the
declared name, and substitute `str(value)` for `{param_name}`. -/
def pathStep (params : Dict) (path : String) (param : Doc) : String :=
  if param.get "in" = some (.str "path") then
    match param.get "name" with
    | some (.str paramName) =>
      match alookup params (pyName paramName) with
      | some v => pyReplace path ("\x7b" ++ paramName ++ "\x7d") (pyStr v)
      | none =>
        match alookup params paramName with
        | some v => pyReplace path ("\x7b" ++ paramName ++ "\x7d") (pyStr v)
        | none => path
    | _ => path
  else path

/-- The path-substitution loop over an operation's parameter list. -/
def substPathParams (parameters : List Doc) (params : Dict) (path : String) : String :=
  parameters.foldl (pathStep params) path

/-- One iteration of the query-building loop of `call_operation`
(lines 422–433): same converted-name-first resolution, values of `None`
omitted, stored under the declared name. -/
def queryStep (params : Dict) (qp : Dict) (param : Doc) : Dict :=
  if param.get "in" = some (.str "query") then
    match param.get "name" with
    | some (.str paramName) =>
      match alookup params (pyName paramName) with
      | some v => if v ≠ .null then ainsert qp paramName v else qp
      | none =>
        match alookup params paramName with
        | some v => if v ≠ .null then ainsert qp paramName v else qp
        | none => qp
    | _ => qp
  else qp

/-- `query_params = dict(self.auth_params)` (a copy) followed by the
query-building loop. -/
def buildQueryParams (authParams : Dict) (parameters : List Doc) (params : Dict) : Dict :=
  parameters.foldl (queryStep params) authParams

/-- One iteration of the form-field loop of `_build_request_body`
(lines 290–300): converted name first, then the declared name; values of
`None` or `False` are omitted (with no fallthrough to the declared name
when the converted name is present). -/
def formStep (params : Dict) (fd : Dict) (entry : String × Doc) : Dict :=
  match alookup params (pyName entry.1) with
  | some v => if v ≠ .null ∧ v ≠ .bool false then ainsert fd entry.1 v else fd
  | none =>
    match alookup params entry.1 with
    | some v => if v ≠ .null ∧ v ≠ .bool false then ainsert fd entry.1 v else fd
    | none => fd

/-- The `form_data` dict built from the (dereferenced) schema's property
list. -/
def buildFormData (properties : List (String × Doc)) (params : Dict) : Dict :=
  properties.foldl (formStep params) []

/-- `_build_request_body`: body text (if any) and content type. -/
def buildRequestBody (spec : Doc) (requestBody : Option Doc) (params : Dict) :
    Option String × String :=
  match requestBody with
  | none => (none, "application/json")
  | some rb =>
    if !pyTruthy rb then (none, "application/json")
    else
      let content := (rb.get "content").getD (.obj [])
      if content.hasKey "application/x-www-form-urlencoded" then
        let mt := (content.get "application/x-www-form-urlencoded").getD .null
        let schema0 := (mt.get "schema").getD (.obj [])
        let schema :=
          if schema0.hasKey "$ref" then
            match schema0.get "$ref" with
            | some (.str r) =>
              match resolveRef spec r with
              | some v => if pyTruthy v then v else .obj []
              | none => .obj []
            | _ => .obj []
          else schema0
        let properties :=
          match schema.get "properties" with
          | some (.obj props) => props
          | _ => []
        (some (urlencodePairs (buildFormData properties params)),
          "application/x-www-form-urlencoded")
      else if content.hasKey "application/json" then
        (some (jsonDump (.obj params)), "application/json")
      else (none, "application/json")

/-- The request `call_operation` hands to the transport. -/
structure BuiltRequest where
  method : String
  url : String
  body : Option String
  contentType : String
  headers : List (String × String)
deriving Repr, DecidableEq

/-- Request resolution in `call_operation` (lines 405–451): path
substitution, base-url join, query string (auth params first), body with
the form-encoded auth prepend, and the headers dict copy. -/
def resolveRequest (spec : Doc) (baseUrl : String) (authParams : Dict)
    (authHeaders : List (String × String)) (info : OpInfo) (params : Dict) :
    BuiltRequest :=
  let path := substPathParams info.parameters params info.path
  let url := rstripSlash baseUrl ++ path
  let queryParams := buildQueryParams authParams info.parameters params
  let url := if queryParams.isEmpty then url else url ++ "?" ++ urlencodePairs queryParams
  let bodyCt := buildRequestBody spec info.requestBody params
  let body :=
    if bodyCt.2 = "application/x-www-form-urlencoded" ∧ ¬authParams.isEmpty then
      let authEncoded := urlencodePairs authParams
      match bodyCt.1 with
      | some b => if b ≠ "" then some (authEncoded ++ "&" ++ b) else some authEncoded
      | none => some authEncoded
    else bodyCt.1
  ⟨info.method, url, body, bodyCt.2, ainsert authHeaders "Accept" "application/json"⟩

/-- The uniform transport result: status, body text, headers. -/
structure HttpResp where
  status : Nat
  body : String
  headers : List (String × String)
deriving Repr, DecidableEq

/-- What the underlying `urllib.request.urlopen` call did on one attempt. -/
inductive UrllibOutcome where
  | success (status : Nat) (body : String) (headers : List (String × String))
  | httpError (code : Nat) (body : String) (headers : List (String × String))
  | urlError (reason : String)
deriving Repr, DecidableEq

/-- Python `pat in s` substring test. -/
def strContains (s pat : String) : Bool := (pySplit s pat).length != 1

/-- `_make_request_with_urllib`: an `HTTPError` (any non-2xx status) is
converted into a normal response; only `URLError` raises a
`SwaggerClientError` (modelled as `.error` with the message). -/
def makeRequestWithUrllib : UrllibOutcome → Except String HttpResp
  | .success status body headers => .ok ⟨status, body, headers⟩
  | .httpError code body headers => .ok ⟨code, body, headers⟩
  | .urlError reason =>
    if strContains (pyLower reason) "timed out" then .error "Request timed out"
    else .error ("Request failed: " ++ reason)

/-- What `call_operation` can return: decoded JSON, the raw response dict
(`raw_response=True`), or Python `None` (the fall-off-the-loop path). -/
inductive CallValue where
  | json (d : Doc)
  | rawResp (r : HttpResp)
  | pynone
deriving Repr, DecidableEq

/-- `json.loads(response['body'])` with the `{'raw': ...}` fallback, the
parser itself abstracted as an oracle `parse`. -/
def decodeBody (parse : String → Option Doc) (resp : HttpResp) : Doc :=
  match parse resp.body with
  | some d => d
  | none => .obj [("raw", .str resp.body)]

/-- Observable outcome of the retry loop: the returned/raised value, how
many attempts were made, and the `time.sleep` delays requested. -/
structure LoopOut where
  result : Except String CallValue
  attempts : Nat
  sleeps : List Nat
deriving Repr

/-- The retry loop of `call_operation` (lines 453–476), one constructor
per remaining loop iteration.  `transport` maps the attempt number to the
outcome of `_make_request`; a caught `SwaggerClientError` sleeps
`retry_delay * 2**attempt` and continues unless this was the last allowed
attempt, in which case it is re-raised. -/
def callLoopGo (maxRetries retryDelay : Nat) (rawResponse : Bool)
    (parse : String → Option Doc) (transport : Nat → Except String HttpResp) :
    Nat → Nat → List Nat → LoopOut
  | 0, attempt, sleeps => ⟨.ok .pynone, attempt, sleeps⟩
  | fuel + 1, attempt, sleeps =>
    match transport attempt with
    | .ok resp =>
      ⟨.ok (if rawResponse then .rawResp resp else .json (decodeBody parse resp)),
        attempt + 1, sleeps⟩
    | .error e =>
      if attempt < maxRetries - 1 then
        callLoopGo maxRetries retryDelay rawResponse parse transport fuel (attempt + 1)
          (sleeps ++ [retryDelay * 2 ^ attempt])
      else ⟨.error e, attempt + 1, sleeps⟩

/-- The retry loop entered at attempt 0 (iteration budget `max_retries`). -/
def callLoop (maxRetries retryDelay : Nat) (rawResponse : Bool)
    (parse : String → Option Doc) (transport : Nat → Except String HttpResp) : LoopOut :=
  callLoopGo maxRetries retryDelay rawResponse parse transport maxRetries 0 []

/-- Client construction arguments (`SwaggerClient.__init__` defaults:
`max_retries=3`, `retry_delay=1`). -/
structure ClientCfg where
  baseUrl : String
  authParams : Dict
  authHeaders : List (String × String)
  maxRetries : Nat := 3
  retryDelay : Nat := 1

/-- Observable outcome of `call_operation`: result, attempts, sleeps, and
the request that was (or would have been) sent. -/
structure CallOut where
  result : Except String CallValue
  attempts : Nat
  sleeps : List Nat
  request : Option BuiltRequest

/-- `call_operation` end to end: `params = params or {}`, operation
lookup (raising before any transport attempt), request resolution, then
the retry loop. -/
def callOperation (spec : Doc) (cfg : ClientCfg) (parse : String → Option Doc)
    (transport : BuiltRequest → Nat → Except String HttpResp)
    (oid : String) (params : Option Dict) (rawResponse : Bool) : CallOut :=
  let ps : Dict :=
    match params with
    | some d => if d.isEmpty then [] else d
    | none => []
  match getOperation (buildOperationMap spec) oid with
  | .error e => ⟨.error e, 0, [], none⟩
  | .ok info =>
    let req := resolveRequest spec cfg.baseUrl cfg.authParams cfg.authHeaders info ps
    let lo := callLoop cfg.maxRetries cfg.retryDelay rawResponse parse (transport req)
    ⟨lo.result, lo.attempts, lo.sleeps, some req⟩

/-! ## State-threaded view of request resolution

To express that `call_operation` never mutates the caller-supplied
`params` dict, the resolution pipeline is re-transcribed with the params
dict threaded explicitly as state: every access the source performs on it
is a read (`readParams`), and the dicts the source writes to
(`query_params`, copied from `auth_params`; `form_data`, fresh) are
separate accumulators.  The final state is returned so the frame property
is observable. -/

/-- A read of the caller-supplied params dict (`k in params` /
`params[k]`): yields the value and leaves the dict as the interpreter
does. -/
def readParams (d : Dict) (k : String) : Option Doc × Dict := (alookup d k, d)

/-- Fold threading the params-dict state through each step. -/
def foldlSt {α β : Type} (f : Dict → α → β → α × Dict) :
    Dict → α → List β → α × Dict
  | d, a, [] => (a, d)
  | d, a, x :: xs =>
    let r := f d a x
    foldlSt f r.2 r.1 xs

/-- `pathStep` with the params dict threaded. -/
def pathStepSt (d : Dict) (path : String) (param : Doc) : String × Dict :=
  if param.get "in" = some (.str "path") then
    match param.get "name" with
    | some (.str paramName) =>
      match readParams d (pyName paramName) with
      | (some v, d) => (pyReplace path ("\x7b" ++ paramName ++ "\x7d") (pyStr v), d)
      | (none, d) =>
        match readParams d paramName with
        | (some v, d) => (pyReplace path ("\x7b" ++ paramName ++ "\x7d") (pyStr v), d)
        | (none, d) => (path, d)
    | _ => (path, d)
  else (path, d)

/-- `queryStep` with the params dict threaded (writes go to the
`query_params` copy, never to the params dict). -/
def queryStepSt (d : Dict) (qp : Dict) (param : Doc) : Dict × Dict :=
  if param.get "in" = some (.str "query") then
    match param.get "name" with
    | some (.str paramName) =>
      match readParams d (pyName paramName) with
      | (some v, d) => if v ≠ .null then (ainsert qp paramName v, d) else (qp, d)
      | (none, d) =>
        match readParams d paramName with
        | (some v, d) => if v ≠ .null then (ainsert qp paramName v, d) else (qp, d)
        | (none, d) => (qp, d)
    | _ => (qp, d)
  else (qp, d)

/-- `formStep` with the params dict threaded (writes go to the fresh
`form_data` dict). -/
def formStepSt (d : Dict) (fd : Dict) (entry : String × Doc) : Dict × Dict :=
  match readParams d (pyName entry.1) with
  | (some v, d) =>
    if v ≠ .null ∧ v ≠ .bool false then (ainsert fd entry.1 v, d) else (fd, d)
  | (none, d) =>
    match readParams d entry.1 with
    | (some v, d) =>
      if v ≠ .null ∧ v ≠ .bool false then (ainsert fd entry.1 v, d) else (fd, d)
    | (none, d) => (fd, d)

/-- `_build_request_body` with the params dict threaded
(`json.dumps(params)` is a read of the whole dict). -/
def buildRequestBodySt (spec : Doc) (requestBody : Option Doc) (d : Dict) :
    (Option String × String) × Dict :=
  match requestBody with
  | none => ((none, "application/json"), d)
  | some rb =>
    if !pyTruthy rb then ((none, "application/json"), d)
    else
      let content := (rb.get "content").getD (.obj [])
      if content.hasKey "application/x-www-form-urlencoded" then
        let mt := (content.get "application/x-www-form-urlencoded").getD .null
        let schema0 := (mt.get "schema").getD (.obj [])
        let schema :=
          if schema0.hasKey "$ref" then
            match schema0.get "$ref" with
            | some (.str r) =>
              match resolveRef spec r with
              | some v => if pyTruthy v then v else .obj []
              | none => .obj []
            | _ => .obj []
          else schema0
        let properties :=
          match schema.get "properties" with
          | some (.obj props) => props
          | _ => []
        let fdOut := foldlSt formStepSt d [] properties
        ((some (urlencodePairs fdOut.1), "application/x-www-form-urlencoded"), fdOut.2)
      else if content.hasKey "application/json" then
        ((some (jsonDump (.obj d)), "application/json"), d)
      else ((none, "application/json"), d)

/-- Request resolution with the params dict threaded. -/
def resolveRequestSt (spec : Doc) (baseUrl : String) (authParams : Dict)
    (authHeaders : List (String × String)) (info : OpInfo) (d : Dict) :
    BuiltRequest × Dict :=
  let pathOut := foldlSt pathStepSt d info.path info.parameters
  let url := rstripSlash baseUrl ++ pathOut.1
  let qpOut := foldlSt queryStepSt pathOut.2 authParams info.parameters
  let url := if qpOut.1.isEmpty then url else url ++ "?" ++ urlencodePairs qpOut.1
  let bodyOut := buildRequestBodySt spec info.requestBody qpOut.2
  let bodyCt := bodyOut.1
  let body :=
    if bodyCt.2 = "application/x-www-form-urlencoded" ∧ ¬authParams.isEmpty then
      let authEncoded := urlencodePairs authParams
      match bodyCt.1 with
      | some b => if b ≠ "" then some (authEncoded ++ "&" ++ b) else some authEncoded
      | none => some authEncoded
    else bodyCt.1
  (⟨info.method, url, body, bodyCt.2, ainsert authHeaders "Accept" "application/json"⟩,
    bodyOut.2)

/-- `call_operation` with the caller's params dict threaded.  The retry
loop does not touch the params dict (the request is built before it). -/
def callOperationSt (spec : Doc) (cfg : ClientCfg) (parse : String → Option Doc)
    (transport : BuiltRequest → Nat → Except String HttpResp)
    (oid : String) (d : Dict) (rawResponse : Bool) : CallOut × Dict :=
  match getOperation (buildOperationMap spec) oid with
  | .error e => (⟨.error e, 0, [], none⟩, d)
  | .ok info =>
    if d.isEmpty then
      -- `params = params or {}` rebinds the local name to a fresh dict;
      -- the caller's (empty) map is untouched
      let req := resolveRequest spec cfg.baseUrl cfg.authParams cfg.authHeaders info []
      let lo := callLoop cfg.maxRetries cfg.retryDelay rawResponse parse (transport req)
      (⟨lo.result, lo.attempts, lo.sleeps, some req⟩, d)
    else
      let reqOut := resolveRequestSt spec cfg.baseUrl cfg.authParams cfg.authHeaders info d
      let lo := callLoop cfg.maxRetries cfg.retryDelay rawResponse parse (transport reqOut.1)
      (⟨lo.result, lo.attempts, lo.sleeps, some reqOut.1⟩, reqOut.2)

/-! ## CoolifyClient facade (`module_utils/swagger/coolify_api.py`)

`ensure_server` (lines 674–724) and `ensure_project` (lines 726–769).
The underlying API methods are oracles threading an abstract remote
state `σ`; a `.error` models a raised `CoolifyError` (whose message is
the error text), caught by the `except CoolifyError` clause.  The only
exception that can escape is the `KeyError` from `existing['uuid']`. -/

/-- The result dict of `ensure_server` / `ensure_project`
(`{'changed': ..., 'msg': ..., 'data': ...}` plus the `failed` key the
except-clause adds). -/
structure EnsureResult where
  changed : Bool
  msg : String
  data : Option Doc
  failed : Bool
deriving Repr, DecidableEq

/-- An exception as seen by the caller of `ensure_*`. -/
inductive PyExc where
  | coolifyError (msg : String)
  | keyError (key : String)
deriving Repr, DecidableEq

/-- Oracle for the API methods `ensure_project` uses. -/
structure ProjectApi (σ : Type) where
  listProjects : σ → Except String (List Doc) × σ
  createProject : String → σ → Except String Doc × σ
  deleteProject : Doc → σ → Except String Doc × σ

/-- Oracle for the API methods `ensure_server` uses. -/
structure ServerApi (σ : Type) where
  listServers : σ → Except String (List Doc) × σ
  createServer : String → String → String → σ → Except String Doc × σ
  deleteServer : Doc → σ → Except String Doc × σ

/-- `CoolifyClient.ensure_project`. -/
def ensureProject {σ : Type} (api : ProjectApi σ) (name state : String) (s : σ) :
    Except PyExc EnsureResult × σ :=
  match api.listProjects s with
  | (.error e, s) => (.ok ⟨false, e, none, true⟩, s)
  | (.ok projects, s) =>
    let existing := projects.find? (fun p => decide (p.get "name" = some (.str name)))
    if state = "present" then
      match existing with
      | some ex =>
        (.ok ⟨false, "Project \x27" ++ name ++ "\x27 already exists", some ex, false⟩, s)
      | none =>
        match api.createProject name s with
        | (.error e, s) => (.ok ⟨false, e, none, true⟩, s)
        | (.ok d, s) =>
          (.ok ⟨true, "Project \x27" ++ name ++ "\x27 created", some d, false⟩, s)
    else if state = "absent" then
      match existing with
      | some ex =>
        match ex.get "uuid" with
        | none => (.error (.keyError "uuid"), s)
        | some u =>
          match api.deleteProject u s with
          | (.error e, s) => (.ok ⟨false, e, none, true⟩, s)
          | (.ok _, s) =>
            (.ok ⟨true, "Project \x27" ++ name ++ "\x27 deleted", none, false⟩, s)
      | none =>
        (.ok ⟨false, "Project \x27" ++ name ++ "\x27 does not exist", none, false⟩, s)
    else (.ok ⟨false, "", none, false⟩, s)

/-- `CoolifyClient.ensure_server`: the lookup matches on `ip` or `name`. -/
def ensureServer {σ : Type} (api : ServerApi σ)
    (name ip privateKeyUuid state : String) (s : σ) :
    Except PyExc EnsureResult × σ :=
  match api.listServers s with
  | (.error e, s) => (.ok ⟨false, e, none, true⟩, s)
  | (.ok servers, s) =>
    let existing := servers.find? (fun p =>
      decide (p.get "ip" = some (.str ip)) || decide (p.get "name" = some (.str name)))
    if state = "present" then
      match existing with
      | some ex =>
        (.ok ⟨false, "Server \x27" ++ name ++ "\x27 already exists", some ex, false⟩, s)
      | none =>
        match api.createServer name ip privateKeyUuid s with
        | (.error e, s) => (.ok ⟨false, e, none, true⟩, s)
        | (.ok d, s) =>
          (.ok ⟨true, "Server \x27" ++ name ++ "\x27 created", some d, false⟩, s)
    else if state = "absent" then
      match existing with
      | some ex =>
        match ex.get "uuid" with
        | none => (.error (.keyError "uuid"), s)
        | some u =>
          match api.deleteServer u s with
          | (.error e, s) => (.ok ⟨false, e, none, true⟩, s)
          | (.ok _, s) =>
            (.ok ⟨true, "Server \x27" ++ name ++ "\x27 deleted", none, false⟩, s)
      | none =>
        (.ok ⟨false, "Server \x27" ++ name ++ "\x27 does not exist", none, false⟩, s)
    else (.ok ⟨false, "", none, false⟩, s)

/-- A concrete remote model for `ensure_project`: the state is the list
of projects plus a count of create calls; a completed create is reflected
in subsequent list results (the created object is appended). -/
def projectStateApi (created : Doc) : ProjectApi (List Doc × Nat) :=
  { listProjects := fun s => (.ok s.1, s)
    createProject := fun _ s => (.ok created, (s.1 ++ [created], s.2 + 1))
    deleteProject := fun u s =>
      (.ok .null, (s.1.filter (fun p => !decide (p.get "uuid" = some u)), s.2)) }

/-- The analogous remote model for `ensure_server`. -/
def serverStateApi (created : Doc) : ServerApi (List Doc × Nat) :=
  { listServers := fun s => (.ok s.1, s)
    createServer := fun _ _ _ s => (.ok created, (s.1 ++ [created], s.2 + 1))
    deleteServer := fun u s =>
      (.ok .null, (s.1.filter (fun p => !decide (p.get "uuid" = some u)), s.2)) }

/-! ## Module entry points

`library/coolify_api.py` `run_module` (the generic passthrough wrapper)
and `library/coolify_project.py` `run_module` (the project wrapper, with
its self-contained client).  Network traffic is observable as counts:
mutating calls (POST/PATCH/DELETE) and read calls (GET list/lookup). -/

/-- The mutating-operation identifier prefixes of the passthrough
wrapper. -/
def mutatingOps : List String :=
  ["create-", "update-", "delete-", "start-", "stop-", "restart-",
   "validate-", "deploy-", "cancel-"]

/-- The result of the passthrough wrapper's `run_module`. -/
structure ApiModuleResult where
  changed : Bool
  response : Option Doc
  operation : Option String
  failed : Bool
  msg : Option String
deriving Repr, DecidableEq

/-- `library/coolify_api.py` `run_module` after argument parsing: in
check mode it exits before constructing the client; otherwise it issues
exactly one `_call` (outcome given by the oracle) and classifies the
operation as mutating by prefix.  The second component counts client
calls issued. -/
def apiRunModule (checkMode : Bool) (operation : String)
    (callOutcome : Except String Doc) : ApiModuleResult × Nat :=
  if checkMode then
    (⟨false, some (.obj [("check_mode", .bool true), ("operation", .str operation)]),
      some operation, false, none⟩, 0)
  else
    match callOutcome with
    | .ok resp =>
      (⟨mutatingOps.any (fun p => pyStartsWith operation p), some resp,
        some operation, false, none⟩, 1)
    | .error e => (⟨false, none, some operation, true, some e⟩, 1)

/-- One entry of the `environments` module argument. -/
structure EnvSpec where
  name : String
  description : Option String := none
  state : String := "present"
deriving Repr, DecidableEq

/-- The project wrapper's module arguments (after `AnsibleModule`
parsing; defaults as in the argument spec). -/
structure ProjectArgs where
  state : String := "present"
  name : String
  description : Option String := none
  uuid : Option String := none
  environments : List EnvSpec := []
deriving Repr, DecidableEq

/-- The remote behaviour the project wrapper observes: the response of
each endpoint it may hit.  (Both `list_environments` calls return the
same modelled snapshot.) -/
structure ProjectRemote where
  projects : List Doc
  createProjectR : Doc
  updateProjectR : Doc
  listEnvsR : List Doc
deriving Repr, DecidableEq

/-- `find_project`: first project matching the uuid (if truthy) or the
name (if truthy). -/
def findProject (projects : List Doc) (name : Option String)
    (uuid : Option String) : Option Doc :=
  projects.find? (fun p =>
    (match uuid with
     | some u => u != "" && decide (p.get "uuid" = some (.str u))
     | none => false) ||
    (match name with
     | some n => n != "" && decide (p.get "name" = some (.str n))
     | none => false))

/-- `find_environment`: first environment with the given name. -/
def findEnvironment (envs : List Doc) (name : String) : Option Doc :=
  envs.find? (fun e => decide (e.get "name" = some (.str name)))

/-- `needs_update`: only the description is compared, and only when the
caller supplied one. -/
def needsUpdate (existing : Doc) (description : Option String) : Bool :=
  match description with
  | some d => !decide (existing.get "description" = some (.str d))
  | none => false

/-- The observable outcome of the project wrapper's `run_module`. -/
structure ProjectModuleOut where
  changed : Bool
  msg : String
  project : Option Doc
  uuid : Option Doc
  environments : List Doc
  envChanged : List (String × String)
  failed : Bool
  mutCalls : Nat
  readCalls : Nat
deriving Repr, DecidableEq

/-- Python `a or b` on option-of-value (None modelled as `none`). -/
def pyOr (a b : Option Doc) : Option Doc :=
  match a with
  | some v => if pyTruthy v then some v else b
  | none => b

/-- Keep an optional value only if truthy (an `if v:` guard). -/
def truthyOpt : Option Doc → Option Doc
  | some v => if pyTruthy v then some v else none
  | none => none

/-- One iteration of the environments loop (only reached when not in
check mode): create a missing `present` environment, delete an existing
`absent` one; accumulator is (changed, changes list, mutating calls). -/
def envLoopStep (currentEnvs : List Doc)
    (acc : Bool × List (String × String) × Nat) (e : EnvSpec) :
    Bool × List (String × String) × Nat :=
  let existingEnv := findEnvironment currentEnvs e.name
  if e.state = "present" then
    match existingEnv with
    | none => (true, acc.2.1 ++ [(e.name, "created")], acc.2.2 + 1)
    | some _ => acc
  else if e.state = "absent" then
    match existingEnv with
    | some _ => (true, acc.2.1 ++ [(e.name, "deleted")], acc.2.2 + 1)
    | none => acc
  else acc

/-- The environments-management block of the project wrapper (lines
369–409): entirely skipped in check mode; otherwise runs when the
project exists (truthy) and the environments argument is non-empty and a
truthy project uuid is available. -/
def envManage (checkMode : Bool) (args : ProjectArgs) (r : ProjectRemote)
    (existingOpt : Option Doc) (base : ProjectModuleOut) : ProjectModuleOut :=
  let proceed :=
    (match existingOpt with
     | some d => pyTruthy d
     | none => false) && !args.environments.isEmpty && !checkMode
  if proceed then
    match truthyOpt (pyOr ((existingOpt.getD .null).get "uuid") base.uuid) with
    | some _ =>
      let loop := args.environments.foldl (envLoopStep r.listEnvsR)
        (base.changed, base.envChanged, 0)
      { base with
        changed := loop.1
        environments := r.listEnvsR
        envChanged := loop.2.1
        mutCalls := base.mutCalls + loop.2.2
        readCalls := base.readCalls + 2 }
    | none => base
  else base

/-- `library/coolify_project.py` `run_module` after argument parsing.
The blanket `except Exception` turns the `KeyError` raised by
`existing['uuid']` (a project object without a `uuid` key) into a failed
result carrying `str(e)` (`"'uuid'"`). -/
def projectRunModule (checkMode : Bool) (args : ProjectArgs)
    (r : ProjectRemote) : ProjectModuleOut :=
  let existing := findProject r.projects (some args.name) args.uuid
  if args.state = "present" then
    match existing with
    | some ex =>
      match ex.get "uuid" with
      | none => ⟨false, "\x27uuid\x27", some ex, none, [], [], true, 0, 1⟩
      | some exUuid =>
        if needsUpdate ex args.description then
          if checkMode then
            envManage checkMode args r (some ex)
              ⟨true, "Would update project \x27" ++ args.name ++ "\x27",
                some ex, some exUuid, [], [], false, 0, 1⟩
          else
            let updated :=
              match args.description with
              | some _ => some r.updateProjectR
              | none => none
            let base : ProjectModuleOut :=
              ⟨true, "Project \x27" ++ args.name ++ "\x27 updated",
                (match truthyOpt updated with
                 | some u => some u
                 | none => some ex),
                some exUuid, [], [], false,
                (match updated with | some _ => 1 | none => 0), 1⟩
            envManage checkMode args r (some ex) base
        else
          envManage checkMode args r (some ex)
            ⟨false, "Project \x27" ++ args.name ++ "\x27 already exists",
              some ex, some exUuid, [], [], false, 0, 1⟩
    | none =>
      if checkMode then
        envManage checkMode args r none
          ⟨true, "Would create project \x27" ++ args.name ++ "\x27",
            none, none, [], [], false, 0, 1⟩
      else
        let project := r.createProjectR
        envManage checkMode args r (some project)
          ⟨true, "Project \x27" ++ args.name ++ "\x27 created",
            some project, project.get "uuid", [], [], false, 1, 1⟩
  else if args.state = "absent" then
    match existing with
    | some ex =>
      if checkMode then
        ⟨true, "Would delete project \x27" ++ args.name ++ "\x27",
          none, none, [], [], false, 0, 1⟩
      else
        match ex.get "uuid" with
        | none => ⟨false, "\x27uuid\x27", none, none, [], [], true, 0, 1⟩
        | some _ =>
          ⟨true, "Project \x27" ++ args.name ++ "\x27 deleted",
            none, none, [], [], false, 1, 1⟩
    | none =>
      ⟨false, "Project \x27" ++ args.name ++ "\x27 does not exist",
        none, none, [], [], false, 0, 1⟩
  else ⟨false, "", none, none, [], [], false, 0, 1⟩

/-! ## Auxiliary definitions used by the theorems -/

/-- The parameter-resolution rule all three resolution sites (path, query,
form body) implement, factored out: the caller's key is tried under the
hyphen→underscore-converted declared name first, and only if absent under
the declared name itself. -/
def resolveLookup (params : Dict) (declared : String) : Option Doc :=
  match alookup params (pyName declared) with
  | some v => some v
  | none => alookup params declared

/-- A minimal OpenAPI document declaring `create-project` as
`POST /projects` with a JSON-encoded request body (the Coolify spec's
shape for this operation). -/
def cpSpec : Doc :=
  .obj [("openapi", .str "3.0.0"),
    ("paths", .obj [
      ("/projects", .obj [
        ("post", .obj [
          ("operationId", .str "create-project"),
          ("requestBody", .obj [
            ("content", .obj [
              ("application/json", .obj [
                ("schema", .obj [("type", .str "object")])])])])])]),
      ("/projects/\x7buuid\x7d", .obj [
        ("get", .obj [
          ("operationId", .str "get-project-by-uuid"),
          ("parameters", .arr [
            .obj [("name", .str "uuid"), ("in", .str "path"),
              ("required", .bool true)]])])])])]

/-! ## Shared lemmas about the dict model -/

theorem alookup_append {α : Type} (d₁ d₂ : List (String × α)) (k : String) :
    alookup (d₁ ++ d₂) k =
      match alookup d₁ k with
      | some v => some v
      | none => alookup d₂ k := by
  induction d₁ with
  | nil => simp [alookup]
  | cons hd tl ih =>
    obtain ⟨k', v⟩ := hd
    by_cases hk : k' = k <;> simp [alookup, hk, ih]

theorem alookup_map_set {α : Type} (d : List (String × α)) (k : String) (v : α)
    (h : (alookup d k).isSome) :
    alookup (d.map (fun kv => if kv.1 = k then (k, v) else kv)) k = some v := by
  induction d with
  | nil => simp [alookup] at h
  | cons hd tl ih =>
    obtain ⟨k', v'⟩ := hd
    simp only [List.map_cons]
    by_cases hk : k' = k
    · subst hk
      rw [if_pos rfl]
      simp [alookup]
    · rw [if_neg hk]
      simp only [alookup, hk, if_false] at h ⊢
      exact ih h

theorem alookup_map_set_ne {α : Type} (d : List (String × α)) (k k' : String)
    (v : α) (hne : k' ≠ k) :
    alookup (d.map (fun kv => if kv.1 = k then (k, v) else kv)) k' = alookup d k' := by
  induction d with
  | nil => rfl
  | cons hd tl ih =>
    obtain ⟨k0, v0⟩ := hd
    simp only [List.map_cons]
    by_cases hk0 : k0 = k
    · subst hk0
      rw [if_pos rfl]
      have hne' : ¬k0 = k' := fun hc => hne hc.symm
      simp [alookup, hne', ih]
    · rw [if_neg hk0]
      simp only [alookup]
      by_cases hk0' : k0 = k' <;> simp [hk0', ih]

theorem alookup_ainsert_self {α : Type} (d : List (String × α)) (k : String) (v : α) :
    alookup (ainsert d k v) k = some v := by
  unfold ainsert
  split
  · next h => exact alookup_map_set d k v h
  · next h =>
    rw [alookup_append]
    cases hk : alookup d k with
    | none => simp [alookup]
    | some w => simp [hk] at h

theorem alookup_ainsert_ne {α : Type} (d : List (String × α)) (k k' : String) (v : α)
    (hne : k' ≠ k) : alookup (ainsert d k v) k' = alookup d k' := by
  unfold ainsert
  split
  · exact alookup_map_set_ne d k k' v hne
  · rw [alookup_append]
    cases hd : alookup d k' with
    | none =>
      have hne' : ¬k = k' := fun hc => hne hc.symm
      simp [alookup, hne']
    | some w => simp

theorem alookup_ainsert_isSome {α : Type} (d : List (String × α)) (k k' : String)
    (v : α) (h : (alookup d k').isSome) :
    (alookup (ainsert d k v) k').isSome := by
  by_cases hk : k' = k
  · subst hk; simp [alookup_ainsert_self]
  · rwa [alookup_ainsert_ne _ _ _ _ hk]

theorem mem_ainsert {α : Type} (d : List (String × α)) (k a : String) (v b : α)
    (h : (a, b) ∈ ainsert d k v) : (a = k ∧ b = v) ∨ (a, b) ∈ d := by
  unfold ainsert at h
  split at h
  · rcases List.mem_map.mp h with ⟨kv, hmem, heq⟩
    by_cases hk : kv.1 = k
    · rw [if_pos hk] at heq
      injection heq with h1 h2
      exact .inl ⟨h1.symm, h2.symm⟩
    · rw [if_neg hk] at heq
      exact .inr (heq ▸ hmem)
  · rcases List.mem_append.mp h with h | h
    · exact .inr h
    · have heq := List.mem_singleton.mp h
      injection heq with h1 h2
      exact .inl ⟨h1, h2⟩

theorem find?_append_of_none {α : Type} (p : α → Bool) (l₁ l₂ : List α)
    (h : l₁.find? p = none) : (l₁ ++ l₂).find? p = l₂.find? p := by
  induction l₁ with
  | nil => simp
  | cons hd tl ih =>
    by_cases hp : p hd
    · rw [List.find?_cons_of_pos _ hp] at h
      simp at h
    · rw [List.find?_cons_of_neg _ hp] at h
      rw [List.cons_append, List.find?_cons_of_neg _ hp]
      exact ih h

/-! ## C1 — parameter-name resolution order -/

/-- C1, counterexample.  The claim states resolution is
convention-bidirectional and tries the declared parameter's original name
first.  Both parts fail on the code: (1) supplying `project-uuid` for a
declared parameter named `project_uuid` does not resolve it (the code
only converts the declared name hyphen→underscore, so a hyphenated caller
key never matches an underscored declaration) — the placeholder is left
unsubstituted; (2) with both spellings supplied for a declared
`project-uuid`, the underscore-converted key wins, not the original. -/
theorem c1_counterexample :
    substPathParams [.obj [("in", .str "path"), ("name", .str "project_uuid")]]
        [("project-uuid", .str "abc123")] "/projects/\x7bproject_uuid\x7d"
      = "/projects/\x7bproject_uuid\x7d"
    ∧ substPathParams [.obj [("in", .str "path"), ("name", .str "project-uuid")]]
        [("project-uuid", .str "ORIG"), ("project_uuid", .str "CONV")]
        "/projects/\x7bproject-uuid\x7d"
      = "/projects/CONV" := ⟨rfl, rfl⟩

/-- C1, amended: at all three resolution sites (path substitution, query
building, form-body fields) the caller's key is first tried under the
declared name with hyphens replaced by underscores, and only if absent
under the declared name itself; in particular supplying `project_uuid`
resolves a declared parameter named `project-uuid` (the converse
direction does not hold, see the counterexample). -/
theorem c1_resolution_tries_converted_name_first
    (params : Dict) (n : String) (path : String) (qp fd : Dict) (sch : Doc) :
    pathStep params path (.obj [("in", .str "path"), ("name", .str n)]) =
      (match resolveLookup params n with
       | some v => pyReplace path ("\x7b" ++ n ++ "\x7d") (pyStr v)
       | none => path)
    ∧ queryStep params qp (.obj [("in", .str "query"), ("name", .str n)]) =
      (match resolveLookup params n with
       | some v => if v ≠ .null then ainsert qp n v else qp
       | none => qp)
    ∧ formStep params fd (n, sch) =
      (match resolveLookup params n with
       | some v => if v ≠ .null ∧ v ≠ .bool false then ainsert fd n v else fd
       | none => fd)
    ∧ resolveLookup [("project_uuid", .str "u1")] "project-uuid" = some (.str "u1") := by
  refine ⟨?_, ?_, ?_, rfl⟩ <;>
    cases h1 : alookup params (pyName n) <;>
      cases h2 : alookup params n <;>
        simp [pathStep, queryStep, formStep, resolveLookup, Doc.get, alookup, h1, h2]

/-! ## C2 — retry with exponential backoff -/

/-- C2: with the default configuration (`max_retries=3`, `retry_delay=1`),
a transport failing the first two attempts and succeeding on the third
yields the decoded third response after exactly 3 attempts with sleeps of
1 then 2 time units; three transport failures re-raise the last failure
after the same 3 attempts and sleeps; and no behaviour ever makes more
than `max_retries` attempts. -/
theorem c2_retry_backoff (parse : String → Option Doc)
    (t : Nat → Except String HttpResp) (e0 e1 : String) (r : HttpResp)
    (h0 : t 0 = .error e0) (h1 : t 1 = .error e1) (h2 : t 2 = .ok r) :
    callLoop 3 1 false parse t = ⟨.ok (.json (decodeBody parse r)), 3, [1, 2]⟩
    ∧ (∀ (t' : Nat → Except String HttpResp) (f0 f1 f2 : String),
        t' 0 = .error f0 → t' 1 = .error f1 → t' 2 = .error f2 →
        callLoop 3 1 false parse t' = ⟨.error f2, 3, [1, 2]⟩)
    ∧ (∀ t'' : Nat → Except String HttpResp,
        (callLoop 3 1 false parse t'').attempts ≤ 3) := by
  refine ⟨?_, ?_, ?_⟩
  · simp [callLoop, callLoopGo, h0, h1, h2]
  · intro t' f0 f1 f2 g0 g1 g2
    simp [callLoop, callLoopGo, g0, g1, g2]
  · intro t''
    simp only [callLoop, callLoopGo]
    cases ht0 : t'' 0 with
    | ok r0 => simp
    | error f0 =>
      simp only [show (0 : Nat) < 3 - 1 by decide, if_true]
      cases ht1 : t'' 1 with
      | ok r1 => simp
      | error f1 =>
        simp only [show (1 : Nat) < 3 - 1 by decide, if_true]
        cases ht2 : t'' 2 with
        | ok r2 => simp
        | error f2 => simp

/-- C2, witness. -/
theorem c2_retry_backoff_witness :
    callLoop 3 1 false (fun _ => some Doc.null)
        (fun n => if n < 2 then .error "boom" else .ok ⟨200, "null", []⟩) =
      ⟨.ok (.json Doc.null), 3, [1, 2]⟩ :=
  (c2_retry_backoff (fun _ => some Doc.null)
    (fun n => if n < 2 then .error "boom" else .ok ⟨200, "null", []⟩)
    "boom" "boom" ⟨200, "null", []⟩ rfl rfl rfl).1

/-! ## C3 — HTTP responses are returned, never retried -/

/-- C3: any HTTP response delivered by the urllib transport on the first
attempt — including the non-2xx `HTTPError` path, which is converted into
a normal response rather than raised — is returned after exactly one
attempt with no sleeps, decoded as JSON when parseable and wrapped as
`{'raw': <body>}` otherwise. -/
theorem c3_http_response_never_retried (parse : String → Option Doc)
    (b : Nat → UrllibOutcome) (resp : HttpResp)
    (h : makeRequestWithUrllib (b 0) = .ok resp) :
    callLoop 3 1 false parse (fun n => makeRequestWithUrllib (b n)) =
      ⟨.ok (.json (decodeBody parse resp)), 1, []⟩
    ∧ (∀ j, parse resp.body = some j → decodeBody parse resp = j)
    ∧ (parse resp.body = none →
        decodeBody parse resp = .obj [("raw", .str resp.body)])
    ∧ (∀ code body headers,
        makeRequestWithUrllib (.httpError code body headers) = .ok ⟨code, body, headers⟩) := by
  refine ⟨?_, ?_, ?_, fun _ _ _ => rfl⟩
  · simp [callLoop, callLoopGo, h]
  · intro j hj; simp [decodeBody, hj]
  · intro hn; simp [decodeBody, hn]

/-- C3, witness: a 404 response with a non-JSON body is delivered once,
unretried, wrapped as a raw container. -/
theorem c3_http_response_never_retried_witness :
    callLoop 3 1 false (fun _ => none)
        (fun n => makeRequestWithUrllib
          ((fun _ => UrllibOutcome.httpError 404 "oops" []) n)) =
      ⟨.ok (.json (.obj [("raw", .str "oops")])), 1, []⟩ :=
  (c3_http_response_never_retried (fun _ => none)
    (fun _ => UrllibOutcome.httpError 404 "oops" []) ⟨404, "oops", []⟩ rfl).1

/-! ## C4 — unknown operation identifiers -/

/-- C4: an operation id absent from the index makes `call_operation` fail
with the operation-not-found error before any transport attempt (0
attempts, no request built), and the error message enumerates at most the
first 10 known operation identifiers. -/
theorem c4_unknown_operation (spec : Doc) (cfg : ClientCfg)
    (parse : String → Option Doc)
    (transport : BuiltRequest → Nat → Except String HttpResp)
    (oid : String) (params : Option Dict) (raw : Bool)
    (h : alookup (buildOperationMap spec) oid = none) :
    callOperation spec cfg parse transport oid params raw =
      ⟨.error (operationNotFoundMsg oid ((buildOperationMap spec).map Prod.fst)),
        0, [], none⟩
    ∧ (((buildOperationMap spec).map Prod.fst).take 10).length ≤ 10 := by
  constructor
  · simp [callOperation, getOperation, h]
  · simp only [List.length_take]
    exact min_le_left _ _

/-- C4, witness. -/
theorem c4_unknown_operation_witness :
    alookup (buildOperationMap cpSpec) "frobnicate" = none
    ∧ callOperation cpSpec ⟨"https://x", [], [], 3, 1⟩ (fun _ => none)
        (fun _ _ => .error "unused") "frobnicate" none false =
      ⟨.error (operationNotFoundMsg "frobnicate"
        ((buildOperationMap cpSpec).map Prod.fst)), 0, [], none⟩ :=
  ⟨rfl, (c4_unknown_operation cpSpec ⟨"https://x", [], [], 3, 1⟩ (fun _ => none)
    (fun _ _ => .error "unused") "frobnicate" none false rfl).1⟩

/-! ## C6 — JSON bodies pass the caller map through verbatim -/

/-- C6: when an operation's request body declares JSON content (and not
form encoding, which the code checks first), the body is the JSON
serialization of the entire caller parameter map, unfiltered; and the
`create-project` scenario resolves to `POST <base>/projects` with body
exactly the JSON encoding of `{"name": "my-app", "description": "demo"}`. -/
theorem c6_json_body_verbatim (spec rb : Doc) (params : Dict)
    (htruthy : pyTruthy rb = true)
    (hform : Doc.hasKey ((rb.get "content").getD (.obj []))
        "application/x-www-form-urlencoded" = false)
    (hjson : ((rb.get "content").getD (.obj [])).hasKey "application/json" = true) :
    buildRequestBody spec (some rb) params
      = (some (jsonDump (.obj params)), "application/json")
    ∧ getOperation (buildOperationMap cpSpec) "create-project" =
        .ok ⟨"/projects", "POST", [],
          some (.obj [("content", .obj [("application/json",
            .obj [("schema", .obj [("type", .str "object")])])])])⟩
    ∧ resolveRequest cpSpec "https://coolify.example/api/v1" [] []
        ⟨"/projects", "POST", [],
          some (.obj [("content", .obj [("application/json",
            .obj [("schema", .obj [("type", .str "object")])])])])⟩
        [("name", .str "my-app"), ("description", .str "demo")] =
      ⟨"POST", "https://coolify.example/api/v1/projects",
        some "\x7b\"name\": \"my-app\", \"description\": \"demo\"\x7d",
        "application/json", [("Accept", "application/json")]⟩ := by
  refine ⟨?_, rfl, rfl⟩
  simp [buildRequestBody, htruthy, hform, hjson]

/-- C6, witness. -/
theorem c6_json_body_verbatim_witness :
    buildRequestBody cpSpec
        (some (.obj [("content", .obj [("application/json",
          .obj [("schema", .obj [("type", .str "object")])])])]))
        [("name", .str "my-app"), ("description", .str "demo")]
      = (some "\x7b\"name\": \"my-app\", \"description\": \"demo\"\x7d",
          "application/json") :=
  (c6_json_body_verbatim cpSpec
    (.obj [("content", .obj [("application/json",
      .obj [("schema", .obj [("type", .str "object")])])])])
    [("name", .str "my-app"), ("description", .str "demo")] rfl rfl rfl).1

/-! ## C5 — check (dry-run) mode -/

theorem envManage_check (args : ProjectArgs) (r : ProjectRemote) (ex : Option Doc)
    (base : ProjectModuleOut) : envManage true args r ex base = base := by
  simp [envManage]

theorem envManage_no_envs (cm : Bool) (args : ProjectArgs)
    (henv : args.environments = []) (r : ProjectRemote) (ex : Option Doc)
    (base : ProjectModuleOut) : envManage cm args r ex base = base := by
  simp [envManage, henv]

/-- C5, counterexample: the generic passthrough wrapper invoked in check
mode with the mutating operation id `create-project` reports
`changed = false` and skips the call — but out of check mode the same
invocation issues the call and reports `changed = true`, so check mode
does not report the change that would otherwise happen, contradicting
the claim for this wrapper. -/
theorem c5_counterexample :
    (apiRunModule true "create-project" (.ok .null)).1.changed = false
    ∧ (apiRunModule false "create-project" (.ok .null)).1.changed = true
    ∧ (apiRunModule false "create-project" (.ok .null)).2 = 1 := ⟨rfl, rfl, rfl⟩

/-- C5, amended: in check mode the project wrapper issues no mutating
network call (only its single read-only existence lookup) and — when no
environment sub-actions are requested and the real run would not fail —
reports exactly the `changed` the real run would report; the generic
passthrough wrapper in check mode issues no network call at all and
always reports `changed = false`, even for mutating operation ids. -/
theorem c5_check_mode (args : ProjectArgs) (r : ProjectRemote)
    (op : String) (out : Except String Doc) :
    (projectRunModule true args r).mutCalls = 0
    ∧ (projectRunModule true args r).readCalls = 1
    ∧ (args.environments = [] → (projectRunModule false args r).failed = false →
        (projectRunModule true args r).changed = (projectRunModule false args r).changed)
    ∧ (apiRunModule true op out).2 = 0
    ∧ (apiRunModule true op out).1.changed = false := by
  refine ⟨?_, ?_, ?_, rfl, rfl⟩
  · unfold projectRunModule
    by_cases hs : args.state = "present"
    · simp only [hs, if_true]
      cases findProject r.projects (some args.name) args.uuid with
      | none => dsimp only; simp [envManage_check]
      | some ex =>
        dsimp only
        cases ex.get "uuid" with
        | none => rfl
        | some exUuid =>
          dsimp only
          by_cases hnu : needsUpdate ex args.description <;>
            simp [hnu, envManage_check]
    · simp only [hs, if_false]
      by_cases ha : args.state = "absent"
      · simp only [ha, if_true]
        cases findProject r.projects (some args.name) args.uuid <;> rfl
      · simp [ha]
  · unfold projectRunModule
    by_cases hs : args.state = "present"
    · simp only [hs, if_true]
      cases findProject r.projects (some args.name) args.uuid with
      | none => dsimp only; simp [envManage_check]
      | some ex =>
        dsimp only
        cases ex.get "uuid" with
        | none => rfl
        | some exUuid =>
          dsimp only
          by_cases hnu : needsUpdate ex args.description <;>
            simp [hnu, envManage_check]
    · simp only [hs, if_false]
      by_cases ha : args.state = "absent"
      · simp only [ha, if_true]
        cases findProject r.projects (some args.name) args.uuid <;> rfl
      · simp [ha]
  · intro henv hok
    unfold projectRunModule at hok ⊢
    by_cases hs : args.state = "present"
    · simp only [hs, if_true] at hok ⊢
      rcases hfp : findProject r.projects (some args.name) args.uuid with _ | ex <;>
        simp only [hfp] at hok ⊢
      · simp [envManage_check, envManage_no_envs _ _ henv]
      · rcases hu : ex.get "uuid" with _ | exUuid <;> simp only [hu] at hok ⊢
        by_cases hnu : needsUpdate ex args.description <;>
          simp [hnu, envManage_check, envManage_no_envs _ _ henv]
    · simp only [hs, if_false] at hok ⊢
      by_cases ha : args.state = "absent"
      · simp only [ha, if_true] at hok ⊢
        rcases hfp : findProject r.projects (some args.name) args.uuid with _ | ex <;>
          simp only [hfp] at hok ⊢
        simp only [show (false = true) = False from by simp, if_false] at hok ⊢
        rcases hu : ex.get "uuid" with _ | exUuid <;> simp only [hu] at hok ⊢
        simp at hok
      · simp [ha] at hok ⊢

/-- C5, witness: a project wrapper run (state `present`, project absent
remotely, no environments) has the same `changed` in check mode as in a
real run. -/
theorem c5_check_mode_witness :
    (projectRunModule true ⟨"present", "p", none, none, []⟩
        ⟨[], .obj [("uuid", .str "u"), ("name", .str "p")], .null, []⟩).changed
      = (projectRunModule false ⟨"present", "p", none, none, []⟩
        ⟨[], .obj [("uuid", .str "u"), ("name", .str "p")], .null, []⟩).changed :=
  (c5_check_mode ⟨"present", "p", none, none, []⟩
    ⟨[], .obj [("uuid", .str "u"), ("name", .str "p")], .null, []⟩
    "list-servers" (.ok .null)).2.2.1 rfl rfl

/-! ## C7 — operation indexing is complete -/

theorem foldl_alookup_mono {α β : Type} (step : List (String × α) → β → List (String × α))
    (k : String)
    (hstep : ∀ ops x, (alookup ops k).isSome → (alookup (step ops x) k).isSome)
    (l : List β) (ops : List (String × α))
    (h : (alookup ops k).isSome) : (alookup (l.foldl step ops) k).isSome := by
  induction l generalizing ops with
  | nil => exact h
  | cons hd tl ih => exact ih _ (hstep _ _ h)

theorem foldl_alookup_hit {α β : Type} (step : List (String × α) → β → List (String × α))
    (k : String)
    (hstep : ∀ ops x, (alookup ops k).isSome → (alookup (step ops x) k).isSome)
    (l : List β) (x : β) (hx : x ∈ l)
    (hins : ∀ ops, (alookup (step ops x) k).isSome) (ops : List (String × α)) :
    (alookup (l.foldl step ops) k).isSome := by
  induction l generalizing ops with
  | nil => cases hx
  | cons hd tl ih =>
    rcases List.mem_cons.mp hx with rfl | hx'
    · exact foldl_alookup_mono step k hstep tl _ (hins ops)
    · exact ih hx' _

theorem foldl_mem_origin {α β : Type} (step : List (String × α) → β → List (String × α))
    (P : β → String → α → Prop)
    (hstep : ∀ ops x k v, (k, v) ∈ step ops x → (k, v) ∈ ops ∨ P x k v)
    (l : List β) (ops : List (String × α)) (k : String) (v : α)
    (h : (k, v) ∈ l.foldl step ops) : (k, v) ∈ ops ∨ ∃ x ∈ l, P x k v := by
  induction l generalizing ops with
  | nil => exact .inl h
  | cons hd tl ih =>
    rcases ih _ h with hin | ⟨x, hx, hp⟩
    · rcases hstep _ _ _ _ hin with h' | hp
      · exact .inl h'
      · exact .inr ⟨hd, List.mem_cons_self _ _, hp⟩
    · exact .inr ⟨x, List.mem_cons_of_mem _ hx, hp⟩

theorem indexMethod_mono (pk : String) (pitem : Doc) (ops : List (String × OpInfo))
    (m k : String) (h : (alookup ops k).isSome) :
    (alookup (indexMethod pk pitem ops m) k).isSome := by
  unfold indexMethod
  cases pitem.get m with
  | none => exact h
  | some operation =>
    dsimp only
    cases operation.get "operationId" with
    | none => exact h
    | some oidDoc =>
      cases oidDoc with
      | str oid =>
        dsimp only
        by_cases hne : oid = ""
        · rw [if_pos hne]; exact h
        · rw [if_neg hne]; exact alookup_ainsert_isSome _ _ _ _ h
      | null => exact h
      | bool b => exact h
      | int n => exact h
      | arr xs => exact h
      | obj fs => exact h

theorem indexMethod_hits (pk : String) (pitem : Doc) (m : String) (op : Doc)
    (oid : String) (hm : pitem.get m = some op)
    (hoid : op.get "operationId" = some (.str oid)) (hne : oid ≠ "")
    (ops : List (String × OpInfo)) :
    (alookup (indexMethod pk pitem ops m) oid).isSome := by
  unfold indexMethod
  rw [hm]
  dsimp only
  rw [hoid]
  dsimp only
  rw [if_neg hne]
  simp [alookup_ainsert_self]

theorem indexPath_mono (ops : List (String × OpInfo)) (entry : String × Doc)
    (k : String) (h : (alookup ops k).isSome) :
    (alookup (indexPath ops entry) k).isSome :=
  foldl_alookup_mono _ k (fun ops m h => indexMethod_mono entry.1 entry.2 ops m k h)
    httpMethods ops h

theorem indexPath_hits (path : String) (pitem : Doc) (m : String) (op : Doc)
    (oid : String) (hmem : m ∈ httpMethods) (hm : pitem.get m = some op)
    (hoid : op.get "operationId" = some (.str oid)) (hne : oid ≠ "")
    (ops : List (String × OpInfo)) :
    (alookup (indexPath ops (path, pitem)) oid).isSome :=
  foldl_alookup_hit _ oid (fun ops m' h => indexMethod_mono path pitem ops m' oid h)
    httpMethods m hmem (fun ops => indexMethod_hits path pitem m op oid hm hoid hne ops)
    ops

theorem indexMethod_origin (pk : String) (pitem : Doc) (ops : List (String × OpInfo))
    (m k : String) (v : OpInfo) (h : (k, v) ∈ indexMethod pk pitem ops m) :
    (k, v) ∈ ops ∨
      ∃ op, pitem.get m = some op ∧ op.get "operationId" = some (.str k) ∧ k ≠ "" := by
  unfold indexMethod at h
  cases hm : pitem.get m with
  | none => rw [hm] at h; exact .inl h
  | some op =>
    rw [hm] at h
    dsimp only at h
    cases ho : op.get "operationId" with
    | none => rw [ho] at h; exact .inl h
    | some oidDoc =>
      rw [ho] at h
      cases oidDoc with
      | str oid =>
        dsimp only at h
        by_cases hne : oid = ""
        · rw [if_pos hne] at h
          exact .inl h
        · rw [if_neg hne] at h
          rcases mem_ainsert _ _ _ _ _ h with ⟨rfl, _⟩ | hin
          · exact .inr ⟨op, rfl, ho, hne⟩
          · exact .inl hin
      | null => exact .inl h
      | bool b => exact .inl h
      | int n => exact .inl h
      | arr xs => exact .inl h
      | obj fs => exact .inl h

theorem indexPath_origin (ops : List (String × OpInfo)) (entry : String × Doc)
    (k : String) (v : OpInfo) (h : (k, v) ∈ indexPath ops entry) :
    (k, v) ∈ ops ∨
      ∃ m op, m ∈ httpMethods ∧ entry.2.get m = some op ∧
        op.get "operationId" = some (.str k) ∧ k ≠ "" := by
  unfold indexPath at h
  rcases foldl_mem_origin _
      (fun m k v => ∃ op, entry.2.get m = some op ∧
        op.get "operationId" = some (.str k) ∧ k ≠ "")
      (fun ops m k v hh => indexMethod_origin entry.1 entry.2 ops m k v hh)
      httpMethods ops k v h with hin | ⟨m, hmm, op, h1, h2⟩
  · exact .inl hin
  · exact .inr ⟨m, op, hmm, h1, h2⟩

theorem buildOperationMap_origin (spec : Doc) (k : String) (v : OpInfo)
    (h : (k, v) ∈ buildOperationMap spec) :
    ∃ pe path pitem m op,
      spec.get "paths" = some (.obj pe) ∧ (path, pitem) ∈ pe ∧ m ∈ httpMethods ∧
      pitem.get m = some op ∧ op.get "operationId" = some (.str k) ∧ k ≠ "" := by
  unfold buildOperationMap at h
  cases hp : spec.get "paths" with
  | none => rw [hp] at h; cases h
  | some pathsDoc =>
    rw [hp] at h
    cases pathsDoc with
    | obj pe =>
      dsimp only at h
      rcases foldl_mem_origin _
          (fun entry k v => ∃ m op, m ∈ httpMethods ∧ entry.2.get m = some op ∧
            op.get "operationId" = some (.str k) ∧ k ≠ "")
          (fun ops e k v hh => indexPath_origin ops e k v hh)
          pe [] k v h with hin | ⟨⟨path, pitem⟩, hmem, m, op, h1, h2, h3, h4⟩
      · cases hin
      · exact ⟨pe, path, pitem, m, op, rfl, hmem, h1, h2, h3, h4⟩
    | null => cases h
    | bool b => cases h
    | int n => cases h
    | str s => cases h
    | arr xs => cases h

/-- C7: every method among the seven indexed ones that carries a (truthy)
`operationId` string is present in the operation index, so resolving it
succeeds (`get_operation` returns the entry rather than raising, and the
request builder is a total function of that entry and the parameter map);
conversely every index entry originates from such a method, so paths
lacking an `operationId` on a method contribute nothing for that method
and indexing never drops a declared operation. -/
theorem c7_indexing_complete (spec : Doc) (pe : List (String × Doc)) (path : String)
    (pitem : Doc) (m : String) (op : Doc) (oid : String)
    (hpaths : spec.get "paths" = some (.obj pe))
    (hmem : (path, pitem) ∈ pe)
    (hmethod : m ∈ httpMethods)
    (hop : pitem.get m = some op)
    (hoid : op.get "operationId" = some (.str oid))
    (hne : oid ≠ "") :
    (alookup (buildOperationMap spec) oid).isSome
    ∧ (∃ info, getOperation (buildOperationMap spec) oid = .ok info)
    ∧ (∀ oid' info', (oid', info') ∈ buildOperationMap spec →
        ∃ pe' path' pitem' m' op',
          spec.get "paths" = some (.obj pe') ∧ (path', pitem') ∈ pe' ∧
          m' ∈ httpMethods ∧ pitem'.get m' = some op' ∧
          op'.get "operationId" = some (.str oid') ∧ oid' ≠ "") := by
  have hsome : (alookup (buildOperationMap spec) oid).isSome := by
    unfold buildOperationMap
    rw [hpaths]
    exact foldl_alookup_hit _ oid (fun ops e h => indexPath_mono ops e oid h) pe
      (path, pitem)  hmem
      (fun ops => indexPath_hits path pitem m op oid hmethod hop hoid hne ops) []
  refine ⟨hsome, ?_, fun oid' info' h => buildOperationMap_origin spec oid' info' h⟩
  rcases ho : alookup (buildOperationMap spec) oid with _ | info
  · rw [ho] at hsome; cases hsome
  · exact ⟨info, by unfold getOperation; rw [ho]⟩

/-- C7, witness. -/
theorem c7_indexing_complete_witness :
    (alookup (buildOperationMap cpSpec) "get-project-by-uuid").isSome
    ∧ ∃ info, getOperation (buildOperationMap cpSpec) "get-project-by-uuid" = .ok info :=
  ⟨(c7_indexing_complete cpSpec _ "/projects/\x7buuid\x7d"
      (.obj [("get", .obj [("operationId", .str "get-project-by-uuid"),
        ("parameters", .arr [.obj [("name", .str "uuid"), ("in", .str "path"),
          ("required", .bool true)]])])])
      "get" (.obj [("operationId", .str "get-project-by-uuid"),
        ("parameters", .arr [.obj [("name", .str "uuid"), ("in", .str "path"),
          ("required", .bool true)]])])
      "get-project-by-uuid" rfl (by simp) (by simp [httpMethods]) rfl rfl
      (by simp)).1,
    (c7_indexing_complete cpSpec _ "/projects/\x7buuid\x7d"
      (.obj [("get", .obj [("operationId", .str "get-project-by-uuid"),
        ("parameters", .arr [.obj [("name", .str "uuid"), ("in", .str "path"),
          ("required", .bool true)]])])])
      "get" (.obj [("operationId", .str "get-project-by-uuid"),
        ("parameters", .arr [.obj [("name", .str "uuid"), ("in", .str "path"),
          ("required", .bool true)]])])
      "get-project-by-uuid" rfl (by simp) (by simp [httpMethods]) rfl rfl
      (by simp)).2.1⟩

/-! ## C8 — the "present" path is idempotent -/

theorem ensureProject_present_step (created : Doc) (name : String)
    (s : List Doc) (c : Nat) :
    ensureProject (projectStateApi created) name "present" (s, c) =
      match s.find? (fun p => decide (p.get "name" = some (.str name))) with
      | some ex =>
        (.ok ⟨false, "Project \x27" ++ name ++ "\x27 already exists", some ex, false⟩,
          (s, c))
      | none =>
        (.ok ⟨true, "Project \x27" ++ name ++ "\x27 created", some created, false⟩,
          (s ++ [created], c + 1)) := by
  cases hf : s.find? (fun p => decide (p.get "name" = some (.str name))) <;>
    simp [ensureProject, projectStateApi, hf]

theorem ensureServer_present_step (created : Doc) (name ip pk : String)
    (s : List Doc) (c : Nat) :
    ensureServer (serverStateApi created) name ip pk "present" (s, c) =
      match s.find? (fun p => decide (p.get "ip" = some (.str ip))
          || decide (p.get "name" = some (.str name))) with
      | some ex =>
        (.ok ⟨false, "Server \x27" ++ name ++ "\x27 already exists", some ex, false⟩,
          (s, c))
      | none =>
        (.ok ⟨true, "Server \x27" ++ name ++ "\x27 created", some created, false⟩,
          (s ++ [created], c + 1)) := by
  cases hf : s.find? (fun p => decide (p.get "ip" = some (.str ip))
      || decide (p.get "name" = some (.str name))) <;>
    simp [ensureServer, serverStateApi, hf]

/-- C8: invoking the `present` path twice with identical input, against a
remote in which a completed create is reflected in subsequent list
results (the state model appends the created object, which carries the
lookup field), issues at most one creating call in total, and the second
invocation finds the existing resource by its lookup fields and reports
`changed = false`; shown for `ensure_project` (lookup by name) and
`ensure_server` (lookup by ip or name). -/
theorem c8_present_idempotent (created createdS : Doc) (name ip pk : String)
    (s0 : List Doc)
    (hname : created.get "name" = some (.str name))
    (hsrv : createdS.get "ip" = some (.str ip)
      ∨ createdS.get "name" = some (.str name)) :
    ((ensureProject (projectStateApi created) name "present"
        (ensureProject (projectStateApi created) name "present" (s0, 0)).2).2.2 ≤ 1
      ∧ ∃ res, (ensureProject (projectStateApi created) name "present"
          (ensureProject (projectStateApi created) name "present" (s0, 0)).2).1
            = .ok res ∧ res.changed = false ∧ res.failed = false)
    ∧ ((ensureServer (serverStateApi createdS) name ip pk "present"
        (ensureServer (serverStateApi createdS) name ip pk "present" (s0, 0)).2).2.2 ≤ 1
      ∧ ∃ res, (ensureServer (serverStateApi createdS) name ip pk "present"
          (ensureServer (serverStateApi createdS) name ip pk "present" (s0, 0)).2).1
            = .ok res ∧ res.changed = false ∧ res.failed = false) := by
  constructor
  · rw [ensureProject_present_step created name s0 0]
    cases hf : s0.find? (fun p => decide (p.get "name" = some (.str name))) with
    | some ex =>
      dsimp only
      rw [ensureProject_present_step created name s0 0, hf]
      dsimp only
      exact ⟨by decide, _, rfl, rfl, rfl⟩
    | none =>
      dsimp only
      have h2 : (s0 ++ [created]).find?
          (fun p => decide (p.get "name" = some (.str name))) = some created := by
        rw [find?_append_of_none _ _ _ hf]
        simp [List.find?, hname]
      rw [ensureProject_present_step created name (s0 ++ [created]) 1, h2]
      dsimp only
      exact ⟨by decide, _, rfl, rfl, rfl⟩
  · rw [ensureServer_present_step createdS name ip pk s0 0]
    cases hf : s0.find? (fun p => decide (p.get "ip" = some (.str ip))
        || decide (p.get "name" = some (.str name))) with
    | some ex =>
      dsimp only
      rw [ensureServer_present_step createdS name ip pk s0 0, hf]
      dsimp only
      exact ⟨by decide, _, rfl, rfl, rfl⟩
    | none =>
      dsimp only
      have h2 : (s0 ++ [createdS]).find? (fun p => decide (p.get "ip" = some (.str ip))
          || decide (p.get "name" = some (.str name))) = some createdS := by
        rw [find?_append_of_none _ _ _ hf]
        rcases hsrv with h | h <;> simp [List.find?, h]
      rw [ensureServer_present_step createdS name ip pk (s0 ++ [createdS]) 1, h2]
      dsimp only
      exact ⟨by decide, _, rfl, rfl, rfl⟩

/-- C8, witness: starting from an empty remote, the double invocation
performs exactly one create and the second run reports no change. -/
theorem c8_present_idempotent_witness :
    (ensureProject (projectStateApi (.obj [("name", .str "demo"), ("uuid", .str "u1")]))
        "demo" "present"
        (ensureProject (projectStateApi (.obj [("name", .str "demo"), ("uuid", .str "u1")]))
          "demo" "present" ([], 0)).2).2.2 ≤ 1 :=
  (c8_present_idempotent (.obj [("name", .str "demo"), ("uuid", .str "u1")])
    (.obj [("name", .str "s1"), ("ip", .str "10.0.0.1")]) "demo" "10.0.0.1" "pk"
    [] rfl (.inl rfl)).1.1

/-! ## C9 — the caller's params dict is never mutated -/

theorem foldlSt_eq {α β : Type} (f : Dict → α → β → α × Dict) (g : α → β → α)
    (d : Dict) (hfg : ∀ a x, f d a x = (g a x, d)) (l : List β) (a : α) :
    foldlSt f d a l = (l.foldl g a, d) := by
  induction l generalizing a with
  | nil => rfl
  | cons hd tl ih =>
    simp only [foldlSt, List.foldl]
    rw [hfg a hd]
    exact ih _

theorem pathStepSt_eq (d : Dict) (a : String) (p : Doc) :
    pathStepSt d a p = (pathStep d a p, d) := by
  unfold pathStepSt pathStep readParams
  by_cases hin : p.get "in" = some (Doc.str "path")
  · rw [if_pos hin, if_pos hin]
    cases p.get "name" with
    | none => rfl
    | some nd =>
      cases nd with
      | str n =>
        dsimp only
        cases alookup d (pyName n) with
        | some v => rfl
        | none => dsimp only; cases alookup d n <;> rfl
      | null => rfl
      | bool b => rfl
      | int i => rfl
      | arr xs => rfl
      | obj fs => rfl
  · rw [if_neg hin, if_neg hin]

theorem queryStepSt_eq (d : Dict) (a : Dict) (p : Doc) :
    queryStepSt d a p = (queryStep d a p, d) := by
  unfold queryStepSt queryStep readParams
  by_cases hin : p.get "in" = some (Doc.str "query")
  · rw [if_pos hin, if_pos hin]
    cases p.get "name" with
    | none => rfl
    | some nd =>
      cases nd with
      | str n =>
        dsimp only
        cases alookup d (pyName n) with
        | some v => dsimp only; split <;> rfl
        | none =>
          dsimp only
          cases alookup d n with
          | some v => dsimp only; split <;> rfl
          | none => rfl
      | null => rfl
      | bool b => rfl
      | int i => rfl
      | arr xs => rfl
      | obj fs => rfl
  · rw [if_neg hin, if_neg hin]

theorem formStepSt_eq (d : Dict) (a : Dict) (entry : String × Doc) :
    formStepSt d a entry = (formStep d a entry, d) := by
  unfold formStepSt formStep readParams
  cases alookup d (pyName entry.1) with
  | some v => dsimp only; split <;> rfl
  | none =>
    dsimp only
    cases alookup d entry.1 with
    | some v => dsimp only; split <;> rfl
    | none => rfl

theorem buildRequestBodySt_eq (spec : Doc) (rb : Option Doc) (d : Dict) :
    buildRequestBodySt spec rb d = (buildRequestBody spec rb d, d) := by
  unfold buildRequestBodySt buildRequestBody
  cases rb with
  | none => rfl
  | some r =>
    by_cases ht : pyTruthy r
    · simp only [ht, Bool.not_true, Bool.false_eq_true, if_false]
      by_cases hf : ((r.get "content").getD (.obj []))
          |>.hasKey "application/x-www-form-urlencoded"
      · simp only [hf, if_true]
        rw [foldlSt_eq formStepSt (formStep d) d (fun a x => formStepSt_eq d a x)]
        rfl
      · simp only [hf, Bool.false_eq_true, if_false]
        by_cases hj : ((r.get "content").getD (.obj [])).hasKey "application/json" <;>
          simp only [hj, if_true, Bool.false_eq_true, if_false]
    · simp only [ht, Bool.not_false, if_true]

theorem resolveRequestSt_eq (spec : Doc) (baseUrl : String) (authParams : Dict)
    (authHeaders : List (String × String)) (info : OpInfo) (d : Dict) :
    resolveRequestSt spec baseUrl authParams authHeaders info d =
      (resolveRequest spec baseUrl authParams authHeaders info d, d) := by
  unfold resolveRequestSt resolveRequest substPathParams buildQueryParams
  simp only [foldlSt_eq pathStepSt (pathStep d) d (fun a x => pathStepSt_eq d a x),
    foldlSt_eq queryStepSt (queryStep d) d (fun a x => queryStepSt_eq d a x),
    buildRequestBodySt_eq]

/-- C9: `call_operation` never mutates the caller-supplied params dict:
re-transcribing the request-resolution pipeline with the dict threaded as
explicit state (every access the source performs on it being a read, the
written dicts `query_params` and `form_data` being separate copies), the
call returns the same observable outcome and leaves the params dict
exactly as it was, whether it returns or raises. -/
theorem c9_params_never_mutated (spec : Doc) (cfg : ClientCfg)
    (parse : String → Option Doc)
    (transport : BuiltRequest → Nat → Except String HttpResp)
    (oid : String) (d : Dict) (raw : Bool) :
    callOperationSt spec cfg parse transport oid d raw =
      (callOperation spec cfg parse transport oid (some d) raw, d) := by
  unfold callOperationSt callOperation
  cases getOperation (buildOperationMap spec) oid with
  | error e => rfl
  | ok info =>
    dsimp only
    by_cases hd : d.isEmpty
    · have hnil : d = [] := List.isEmpty_iff.mp hd
      subst hnil
      simp
    · simp only [hd, Bool.false_eq_true, if_false, resolveRequestSt_eq]

/-! ## C10 — the facade helpers never leak errors -/

theorem ensureProject_cases {σ : Type} (api : ProjectApi σ) (name state : String)
    (s : σ) :
    (∃ r, (ensureProject api name state s).1 = .ok r
        ∧ (r.failed = true → r.changed = false))
    ∨ (ensureProject api name state s).1 = .error (.keyError "uuid") := by
  unfold ensureProject
  rcases hl : api.listProjects s with ⟨lres, s1⟩
  cases lres with
  | error e => exact .inl ⟨_, rfl, fun _ => rfl⟩
  | ok projects =>
    dsimp only
    by_cases hp : state = "present" <;> simp only [hp, if_true, Bool.false_eq_true, if_false]
    · cases projects.find? (fun p => decide (p.get "name" = some (.str name))) with
      | some ex => exact .inl ⟨_, rfl, fun h => by cases h⟩
      | none =>
        rcases hc : api.createProject name s1 with ⟨cres, s2⟩
        cases cres with
        | error e => exact .inl ⟨_, rfl, fun _ => rfl⟩
        | ok d2 => exact .inl ⟨_, rfl, fun h => by cases h⟩
    · by_cases ha : state = "absent" <;> simp only [ha, if_true, Bool.false_eq_true, if_false]
      · cases projects.find? (fun p => decide (p.get "name" = some (.str name))) with
        | some ex =>
          dsimp only
          cases ex.get "uuid" with
          | none => exact .inr rfl
          | some u =>
            dsimp only
            rcases hdel : api.deleteProject u s1 with ⟨dres, s2⟩
            cases dres with
            | error e => exact .inl ⟨_, rfl, fun _ => rfl⟩
            | ok dd => exact .inl ⟨_, rfl, fun h => by cases h⟩
        | none => exact .inl ⟨_, rfl, fun h => by cases h⟩
      · exact .inl ⟨_, rfl, fun h => by cases h⟩

theorem ensureServer_cases {σ : Type} (api : ServerApi σ)
    (name ip pk state : String) (s : σ) :
    (∃ r, (ensureServer api name ip pk state s).1 = .ok r
        ∧ (r.failed = true → r.changed = false))
    ∨ (ensureServer api name ip pk state s).1 = .error (.keyError "uuid") := by
  unfold ensureServer
  rcases hl : api.listServers s with ⟨lres, s1⟩
  cases lres with
  | error e => exact .inl ⟨_, rfl, fun _ => rfl⟩
  | ok servers =>
    dsimp only
    by_cases hp : state = "present" <;> simp only [hp, if_true, Bool.false_eq_true, if_false]
    · cases servers.find? (fun p => decide (p.get "ip" = some (.str ip))
          || decide (p.get "name" = some (.str name))) with
      | some ex => exact .inl ⟨_, rfl, fun h => by cases h⟩
      | none =>
        rcases hc : api.createServer name ip pk s1 with ⟨cres, s2⟩
        cases cres with
        | error e => exact .inl ⟨_, rfl, fun _ => rfl⟩
        | ok d2 => exact .inl ⟨_, rfl, fun h => by cases h⟩
    · by_cases ha : state = "absent" <;> simp only [ha, if_true, Bool.false_eq_true, if_false]
      · cases servers.find? (fun p => decide (p.get "ip" = some (.str ip))
            || decide (p.get "name" = some (.str name))) with
        | some ex =>
          dsimp only
          cases ex.get "uuid" with
          | none => exact .inr rfl
          | some u =>
            dsimp only
            rcases hdel : api.deleteServer u s1 with ⟨dres, s2⟩
            cases dres with
            | error e => exact .inl ⟨_, rfl, fun _ => rfl⟩
            | ok dd => exact .inl ⟨_, rfl, fun h => by cases h⟩
        | none => exact .inl ⟨_, rfl, fun h => by cases h⟩
      · exact .inl ⟨_, rfl, fun h => by cases h⟩

/-- C10: `ensure_server` and `ensure_project` never propagate a
`CoolifyError`; every API-error outcome of an underlying call yields a
result with `failed = true`, the error text as `msg`, and — since every
call that can raise occurs before `changed` is set — a failed result
always has `changed = false`. -/
theorem c10_ensure_error_handling {σ : Type} (papi : ProjectApi σ)
    (sapi : ServerApi σ) (name ip pk state : String) (s : σ) :
    (∀ e, (ensureProject papi name state s).1 ≠ .error (.coolifyError e))
    ∧ (∀ res, (ensureProject papi name state s).1 = .ok res →
        res.failed = true → res.changed = false)
    ∧ (∀ e s', papi.listProjects s = (.error e, s') →
        (ensureProject papi name state s).1 = .ok ⟨false, e, none, true⟩)
    ∧ (∀ projects s' e s'', papi.listProjects s = (.ok projects, s') →
        projects.find? (fun p => decide (p.get "name" = some (.str name))) = none →
        state = "present" →
        papi.createProject name s' = (.error e, s'') →
        (ensureProject papi name state s).1 = .ok ⟨false, e, none, true⟩)
    ∧ (∀ e, (ensureServer sapi name ip pk state s).1 ≠ .error (.coolifyError e))
    ∧ (∀ res, (ensureServer sapi name ip pk state s).1 = .ok res →
        res.failed = true → res.changed = false)
    ∧ (∀ e s', sapi.listServers s = (.error e, s') →
        (ensureServer sapi name ip pk state s).1 = .ok ⟨false, e, none, true⟩) := by
  refine ⟨?_, ?_, ?_, ?_, ?_, ?_, ?_⟩
  · intro e hc
    rcases ensureProject_cases papi name state s with ⟨r, hr, _⟩ | hk
    · rw [hr] at hc; cases hc
    · rw [hk] at hc
      injection hc with hx
      cases hx
  · intro res hres
    rcases ensureProject_cases papi name state s with ⟨r, hr, himp⟩ | hk
    · rw [hr] at hres
      injection hres with hx
      exact hx ▸ himp
    · rw [hk] at hres; cases hres
  · intro e s' hl
    unfold ensureProject
    rw [hl]
  · intro projects s' e s'' hl hf hp hc
    subst hp
    unfold ensureProject
    rw [hl]
    dsimp only
    rw [if_pos rfl, hf]
    dsimp only
    rw [hc]
  · intro e hc
    rcases ensureServer_cases sapi name ip pk state s with ⟨r, hr, _⟩ | hk
    · rw [hr] at hc; cases hc
    · rw [hk] at hc
      injection hc with hx
      cases hx
  · intro res hres
    rcases ensureServer_cases sapi name ip pk state s with ⟨r, hr, himp⟩ | hk
    · rw [hr] at hres
      injection hres with hx
      exact hx ▸ himp
    · rw [hk] at hres; cases hres
  · intro e s' hl
    unfold ensureServer
    rw [hl]

/-- C10, witness: a failing `list_projects` yields a failed, unchanged
result carrying the error text. -/
theorem c10_ensure_error_handling_witness :
    (ensureProject
        (⟨fun u => (.error "API error (500): boom", u),
          fun _ u => (.ok .null, u), fun _ u => (.ok .null, u)⟩ : ProjectApi Unit)
        "p" "present" ()).1
      = .ok ⟨false, "API error (500): boom", none, true⟩ :=
  (c10_ensure_error_handling
    (⟨fun u => (.error "API error (500): boom", u),
      fun _ u => (.ok .null, u), fun _ u => (.ok .null, u)⟩ : ProjectApi Unit)
    (⟨fun u => (.ok [], u), fun _ _ _ u => (.ok .null, u),
      fun _ u => (.ok .null, u)⟩ : ServerApi Unit)
    "p" "ip" "pk" "present" ()).2.2.1 "API error (500): boom" () rfl

end Coolify
